import Mathlib

/-!
Shallow embedding of `secure-tcp-gender-changer` (src/src/main.rs): a TCP
tunnel whose trust decisions are made by pinning exactly one certificate per
direction.  The embedding follows the source: the `SingleCertVerifier` with
its two rustls trait methods, the server accept/pair loop built on
`tokio::try_join!`, the client redial loop, and the per-session tasks that
wrap `tokio::io::copy_bidirectional`.
-/

namespace STGC

/-- `rustls::Certificate` is a newtype over `Vec<u8>`; equality is the derived
byte-for-byte equality of the wrapped vector (main.rs line 12 import, used at
lines 140-142, 178-180). -/
structure Certificate where
  bytes : List Nat
deriving DecidableEq, Repr

/-- `rustls::DistinguishedName`, also an opaque byte blob; only stored, never
compared (main.rs lines 19, 26). -/
structure DistinguishedName where
  bytes : List Nat
deriving DecidableEq, Repr

/-- The subset of `rustls::CertificateError` variants relevant here.  The
source only ever constructs `ApplicationVerificationFailure` (main.rs lines
46, 66); the other variants exist in rustls and are included so that "the
reason is the application verification failure error" is a non-trivial
statement. -/
inductive CertificateError where
  | BadEncoding
  | Expired
  | NotValidYet
  | UnknownIssuer
  | ApplicationVerificationFailure
deriving DecidableEq, Repr

/-- The subset of `rustls::Error` used by the embedded code paths:
`InvalidCertificate` is what the verifier returns; `General` stands for any
other handshake-layer failure (transport, protocol). -/
inductive RustlsError where
  | InvalidCertificate (e : CertificateError)
  | General
deriving DecidableEq, Repr

/-- `rustls::server::ClientCertVerified` - a zero-sized assertion token. -/
inductive ClientCertVerified where
  | assertion
deriving DecidableEq, Repr

/-- `rustls::client::ServerCertVerified` - a zero-sized assertion token. -/
inductive ServerCertVerified where
  | assertion
deriving DecidableEq, Repr

/-- `std::time::SystemTime`, opaque to the verifier (it ignores it). -/
abbrev SystemTime : Type := Nat

/-- `rustls::ServerName`, opaque to the verifier (it ignores it). -/
abbrev ServerName : Type := List Nat

/-- A signed certificate timestamp entry (`&[u8]` items of the `_scts`
iterator), opaque to the verifier. -/
abbrev Sct : Type := List Nat

/-- The `_ocsp_response: &[u8]` argument, opaque to the verifier. -/
abbrev OcspResponse : Type := List Nat

/-- `struct SingleCertVerifier` (main.rs lines 17-20). -/
structure SingleCertVerifier where
  certificate : Certificate
  distinguished_names : List DistinguishedName
deriving DecidableEq, Repr

/-- `SingleCertVerifier::new` (main.rs lines 23-28). -/
def SingleCertVerifier.new (certificate : Certificate) : SingleCertVerifier :=
  { certificate := certificate
    distinguished_names := [DistinguishedName.mk []] }

/-- `SingleCertVerifier::verify_client_cert` (main.rs lines 36-49): accept the
presented end-entity certificate exactly when it equals the pinned one,
otherwise fail with `InvalidCertificate(ApplicationVerificationFailure)`.  The
`_intermediates` and `_now` arguments are bound but unused, as in the
source. -/
def SingleCertVerifier.verify_client_cert (self : SingleCertVerifier)
    (end_entity : Certificate) (_intermediates : List Certificate)
    (_now : SystemTime) : Except RustlsError ClientCertVerified :=
  if end_entity = self.certificate then
    .ok .assertion
  else
    .error (.InvalidCertificate .ApplicationVerificationFailure)

/-- `SingleCertVerifier::verify_server_cert` (main.rs lines 52-69): same
decision; the `_intermediates`, `_server_name`, `_scts`, `_ocsp_response` and
`_now` arguments are bound but unused, as in the source. -/
def SingleCertVerifier.verify_server_cert (self : SingleCertVerifier)
    (end_entity : Certificate) (_intermediates : List Certificate)
    (_server_name : ServerName) (_scts : List Sct)
    (_ocsp_response : OcspResponse) (_now : SystemTime) :
    Except RustlsError ServerCertVerified :=
  if end_entity = self.certificate then
    .ok .assertion
  else
    .error (.InvalidCertificate .ApplicationVerificationFailure)

/-- The spec's single shared decision algorithm (spec sections 4.1 and 9:
"one equality-over-exact-bytes algorithm parameterized only by which Pinned
Reference is active", `verify(presented) -> accepted|rejected`).  Stated from
the spec's words, to be compared with the two rustls trait implementations. -/
def spec_verify (pinned presented : Certificate) : Bool :=
  presented == pinned

/-- An accepted or connected TCP stream, identified opaquely. -/
abbrev Conn : Type := Nat

/-- `std::io::Error` as surfaced by tokio accept/connect/copy operations,
identified opaquely by a code. -/
structure IoError where
  code : Nat
deriving DecidableEq, Repr

/-- `color_eyre::Report`: the error type carried by `?` out of `main` and out
of the spawned session tasks (main.rs lines 116, 167, 204).  `main` returning
`Err` makes the process exit with a nonzero status. -/
inductive Report where
  | Io (e : IoError)
  | Tls (e : RustlsError)
deriving DecidableEq, Repr

/-- Decidable equality for `Except` values, needed to evaluate the model on
concrete inputs. -/
instance {ε α : Type} [DecidableEq ε] [DecidableEq α] :
    DecidableEq (Except ε α) := fun a b =>
  match a, b with
  | .ok x, .ok y =>
    if h : x = y then .isTrue (congrArg Except.ok h)
    else .isFalse (fun hh => h (Except.ok.inj hh))
  | .error x, .error y =>
    if h : x = y then .isTrue (congrArg Except.error h)
    else .isFalse (fun hh => h (Except.error.inj hh))
  | .ok _, .error _ => .isFalse (fun hh => Except.noConfusion hh)
  | .error _, .ok _ => .isFalse (fun hh => Except.noConfusion hh)

/-- `tokio::try_join!` on two already-resolved results (main.rs line 160):
the pair if both branches succeeded, otherwise the error of a failed
branch. -/
def try_join {ε α β : Type} : Except ε α → Except ε β → Except ε (α × β)
  | .error e, _ => .error e
  | .ok _, .error e => .error e
  | .ok a, .ok b => .ok (a, b)

/-- Modelled from the spec: the rustls handshake machinery is library code
that is not part of this repository's sources (only its verifier callback,
`SingleCertVerifier`, is).  Per spec section 2, the TLS Handshake Layer
"performs mutual-TLS handshakes using the Pin Store as the sole trust
decision; produces either an authenticated encrypted stream or a handshake
failure".  A handshake attempt is therefore determined by the peer's
presented end-entity certificate and intermediate chain, handshake-time
context, and whether the transport/protocol part of the handshake succeeds. -/
structure HandshakeAttempt where
  presented : Certificate
  intermediates : List Certificate
  scts : List Sct
  ocsp : OcspResponse
  now : SystemTime
  transportOk : Bool
deriving DecidableEq, Repr

/-- Modelled from the spec: `TlsAcceptor::accept` (server side, main.rs line
163, rustls library code): the handshake succeeds iff its transport/protocol
part succeeds and the configured `ClientCertVerifier` accepts the client's
presented certificate. -/
def tlsAccept (v : SingleCertVerifier) (h : HandshakeAttempt) :
    Except RustlsError Unit :=
  if h.transportOk = false then .error .General
  else
    match v.verify_client_cert h.presented h.intermediates h.now with
    | .ok _ => .ok ()
    | .error e => .error e

/-- Modelled from the spec: `TlsConnector::connect` (client side, main.rs line
197, rustls library code): the handshake succeeds iff its transport/protocol
part succeeds and the configured `ServerCertVerifier` accepts the server's
presented certificate; `domain` is the fixed placeholder `ServerName` built at
main.rs line 193. -/
def tlsConnect (v : SingleCertVerifier) (domain : ServerName)
    (h : HandshakeAttempt) : Except RustlsError Unit :=
  if h.transportOk = false then .error .General
  else
    match v.verify_server_cert h.presented h.intermediates domain h.scts
        h.ocsp h.now with
    | .ok _ => .ok ()
    | .error e => .error e

/-- Observable events inside one session's unit of work. -/
inductive SessionEvent where
  | handshakeOk
  | handshakeFailed (e : RustlsError)
  | outgoingConnectFailed (e : IoError)
  | relayStart
  | relayDone (r : Except IoError Unit)
deriving DecidableEq, Repr

/-- Nondeterministic environment of one server-side session task: the TLS
handshake attempt it will see, and the outcome its `copy_bidirectional` call
would produce if reached. -/
structure ServerSessionEnv where
  handshake : HandshakeAttempt
  relay : Except IoError Unit
deriving DecidableEq, Repr

/-- The spawned server session task (main.rs lines 162-168): `acceptor.accept`
with `?` (so a handshake failure returns the error from the task and nothing
else runs), then `copy_bidirectional` with `?`.  Returns the task's event
trace and its `Result` value. -/
def serverSessionTask (v : SingleCertVerifier) (env : ServerSessionEnv) :
    List SessionEvent × Except Report Unit :=
  match tlsAccept v env.handshake with
  | .error e => ([.handshakeFailed e], .error (.Tls e))
  | .ok _ =>
    ([.handshakeOk, .relayStart, .relayDone env.relay],
      match env.relay with
      | .ok _ => .ok ()
      | .error e => .error (.Io e))

/-- Nondeterministic environment of one client-side session task: the result
of the second-hop `TcpStream::connect` to the true destination, and the
outcome its `copy_bidirectional` call would produce if reached. -/
structure ClientTaskEnv where
  outgoingConnect : Except IoError Conn
  relay : Except IoError Unit
deriving DecidableEq, Repr

/-- The spawned client session task (main.rs lines 199-205): connect to the
outgoing host with `?` (a failure returns the error from the task), then
`copy_bidirectional` with `?`.  Returns the task's event trace and its
`Result` value. -/
def clientSessionTask (env : ClientTaskEnv) :
    List SessionEvent × Except Report Unit :=
  match env.outgoingConnect with
  | .error e => ([.outgoingConnectFailed e], .error (.Io e))
  | .ok _ =>
    ([.relayStart, .relayDone env.relay],
      match env.relay with
      | .ok _ => .ok ()
      | .error e => .error (.Io e))

/-- Outcome of evaluating an unbounded server/client loop against a finite
list of per-iteration environments: either the loop consumed every supplied
iteration and is still running (awaiting further events), or a `?` inside the
loop body propagated an error out of the loop - and hence out of `main`,
terminating the process with a nonzero exit status.  `spawned` lists the
session tasks handed off before that point, in spawn order. -/
inductive LoopOutcome (σ : Type) where
  | running (spawned : List σ)
  | fatal (spawned : List σ) (e : Report)
deriving DecidableEq, Repr

/-- The sessions spawned by a loop run. -/
def LoopOutcome.spawned {σ : Type} : LoopOutcome σ → List σ
  | .running s => s
  | .fatal s _ => s

/-- The process exit status produced by a loop outcome: `none` while the loop
is still running; `main` returning `Err(report)` exits nonzero (modelled as
status 1). -/
def exitStatus {σ : Type} : LoopOutcome σ → Option Nat
  | .running _ => none
  | .fatal _ _ => some 1

/-- Environment of one iteration of the server accept loop: the results of
the two `accept` calls joined by `try_join!`, and the spawned session's
environment. -/
structure ServerIterInput where
  proxyAccept : Except IoError Conn
  incomingAccept : Except IoError Conn
  session : ServerSessionEnv
deriving DecidableEq, Repr

/-- The server accept loop (main.rs lines 158-169), evaluated against a
finite list of iteration environments.  Each iteration awaits one accepted
connection from EACH listener via `try_join!`; an accept error propagates out
of the loop through `?`; otherwise the session task is spawned and the loop
immediately continues, not waiting for the task. -/
def serverLoop (_v : SingleCertVerifier) :
    List ServerIterInput → LoopOutcome ServerIterInput
  | [] => .running []
  | inp :: rest =>
    match try_join inp.proxyAccept inp.incomingAccept with
    | .error e => .fatal [] (.Io e)
    | .ok _ =>
      match serverLoop _v rest with
      | .running s => .running (inp :: s)
      | .fatal s e => .fatal (inp :: s) e

/-- Environment of one iteration of the client redial loop: the result of the
outbound `TcpStream::connect` to the relay, the TLS handshake attempt with
the relay, and the spawned session task's environment. -/
structure ClientIterInput where
  proxyConnect : Except IoError Conn
  handshake : HandshakeAttempt
  task : ClientTaskEnv
deriving DecidableEq, Repr

/-- The client redial loop (main.rs lines 195-206), evaluated against a
finite list of iteration environments.  Each iteration connects to the relay
with `?`, performs the TLS handshake with `?` (so either failure propagates
out of the loop and out of `main`), then spawns the session task and
immediately redials. -/
def clientLoop (v : SingleCertVerifier) (domain : ServerName) :
    List ClientIterInput → LoopOutcome ClientIterInput
  | [] => .running []
  | inp :: rest =>
    match inp.proxyConnect with
    | .error e => .fatal [] (.Io e)
    | .ok _ =>
      match tlsConnect v domain inp.handshake with
      | .error e => .fatal [] (.Tls e)
      | .ok _ =>
        match clientLoop v domain rest with
        | .running s => .running (inp :: s)
        | .fatal s e => .fatal (inp :: s) e

/-- One connection arrival at the relay host, on one of the two listening
endpoints.  A schedule (list) of arrivals abstracts wall-clock timing: the
list order is the order in which connections become available to the
listeners' accept queues, with arrivals on the two endpoints arbitrarily
interleaved. -/
inductive Arrival where
  | proxy (c : Conn)
  | incoming (c : Conn)
deriving DecidableEq, Repr

/-- The connections of a schedule that arrive on the public (proxy)
endpoint, in arrival order. -/
def proxyArrivals : List Arrival → List Conn
  | [] => []
  | .proxy c :: rest => c :: proxyArrivals rest
  | .incoming _ :: rest => proxyArrivals rest

/-- The connections of a schedule that arrive on the private (incoming)
endpoint, in arrival order. -/
def incomingArrivals : List Arrival → List Conn
  | [] => []
  | .proxy _ :: rest => incomingArrivals rest
  | .incoming c :: rest => c :: incomingArrivals rest

/-- State of the relay-side broker: the two listeners' FIFO queues of
accepted-but-not-yet-paired connections, and the pairings made so far in
pairing order. -/
structure BrokerState where
  pendingProxy : List Conn
  pendingIncoming : List Conn
  paired : List (Conn × Conn)
deriving DecidableEq, Repr

/-- Deliver one arrival to the broker (main.rs lines 158-161): the connection
joins its endpoint's FIFO queue; whenever both queues are nonempty, the
blocked `try_join!(proxy_listener.accept(), incoming_listener.accept())`
completes with the two queue heads and the loop records that pairing. -/
def brokerStep (s : BrokerState) (a : Arrival) : BrokerState :=
  match a with
  | .proxy c =>
    match s.pendingProxy ++ [c], s.pendingIncoming with
    | p :: ps, i :: is =>
      { pendingProxy := ps, pendingIncoming := is
        paired := s.paired ++ [(p, i)] }
    | pp, ii => { pendingProxy := pp, pendingIncoming := ii, paired := s.paired }
  | .incoming c =>
    match s.pendingProxy, s.pendingIncoming ++ [c] with
    | p :: ps, i :: is =>
      { pendingProxy := ps, pendingIncoming := is
        paired := s.paired ++ [(p, i)] }
    | pp, ii => { pendingProxy := pp, pendingIncoming := ii, paired := s.paired }

/-- Run the broker from its initial state over a whole arrival schedule. -/
def brokerRun (sched : List Arrival) : BrokerState :=
  sched.foldl brokerStep ⟨[], [], []⟩

/-- The terminal read event of one relay direction's source stream. -/
inductive ReadTerminal where
  | eof
  | readError (e : IoError)
deriving DecidableEq, Repr

/-- One direction's source stream, as seen by the relay engine: a finite
sequence of successfully read byte chunks followed by one terminal read
event (end-of-stream or an I/O error). -/
structure DirectionSource where
  chunks : List (List Nat)
  terminal : ReadTerminal
deriving DecidableEq, Repr

/-- What one relay direction did by the time the engine completed. -/
structure DirectionResult where
  delivered : List Nat
  shutdownSent : Bool
  outcome : Except IoError Nat
deriving DecidableEq, Repr

/-- The transfer loop of one relay direction: chunks read from the source are
appended, in order, to the bytes delivered to the destination. -/
def copyChunks : List (List Nat) → List Nat
  | [] => []
  | c :: rest => c ++ copyChunks rest

/-- Modelled from the spec: one direction of the relay engine run to its
terminal state (`tokio::io::copy_bidirectional` is tokio library code, not in
this repository's sources; it is only invoked at main.rs lines 165 and 202).
Per spec section 4.3: every chunk read is copied to the other stream in
order; on end-of-stream the destination's write half is shut down and the
direction completes with its byte count; on a read error the error
surfaces. -/
def runDirection (src : DirectionSource) : DirectionResult :=
  { delivered := copyChunks src.chunks
    shutdownSent := match src.terminal with
      | .eof => true
      | .readError _ => false
    outcome := match src.terminal with
      | .eof => .ok (copyChunks src.chunks).length
      | .readError e => .error e }

/-- Modelled from the spec: `tokio::io::copy_bidirectional a b` (main.rs
lines 165 and 202) drives both directions concurrently, each on its own
source stream, and returns control once both have reached a terminal
state. -/
def copy_bidirectional (ab ba : DirectionSource) :
    DirectionResult × DirectionResult :=
  (runDirection ab, runDirection ba)

/-- Modelled from the spec: the value `copy_bidirectional` returns to the
session task - the two directions' byte counts on success, or an error once
one has surfaced. -/
def copy_bidirectional_result (ab ba : DirectionSource) :
    Except IoError (Nat × Nat) :=
  match (runDirection ab).outcome, (runDirection ba).outcome with
  | .error e, _ => .error e
  | _, .error e => .error e
  | .ok m, .ok n => .ok (m, n)

/-! ## Theorems -/

/-- C1: in either role, the pin verifier accepts exactly when the presented
end-entity certificate's bytes equal the pinned certificate's bytes; in every
other case it returns `InvalidCertificate(ApplicationVerificationFailure)`;
and the verdict does not depend on the intermediate chain entries, the current
time, the server name, the SCTs, or the OCSP response. -/
theorem pin_verifier_accept_iff_byte_equal
    (v : SingleCertVerifier) (e : Certificate)
    (ints ints' : List Certificate) (now now' : SystemTime)
    (sn sn' : ServerName) (scts scts' : List Sct)
    (ocsp ocsp' : OcspResponse) :
    (v.verify_client_cert e ints now = .ok .assertion ↔ e = v.certificate)
    ∧ (v.verify_client_cert e ints now =
          .error (.InvalidCertificate .ApplicationVerificationFailure)
        ↔ e ≠ v.certificate)
    ∧ (v.verify_server_cert e ints sn scts ocsp now = .ok .assertion
        ↔ e = v.certificate)
    ∧ (v.verify_server_cert e ints sn scts ocsp now =
          .error (.InvalidCertificate .ApplicationVerificationFailure)
        ↔ e ≠ v.certificate)
    ∧ v.verify_client_cert e ints now = v.verify_client_cert e ints' now'
    ∧ v.verify_server_cert e ints sn scts ocsp now
        = v.verify_server_cert e ints' sn' scts' ocsp' now' := by
  unfold SingleCertVerifier.verify_client_cert SingleCertVerifier.verify_server_cert
  by_cases h : e = v.certificate <;> simp [h]

/-- Witness for C1: concrete pinned certificate `[1, 2, 3]`, a mismatching
presented certificate `[1, 2, 4]` is rejected with the application
verification failure reason. -/
theorem pin_verifier_accept_iff_byte_equal_witness :
    (SingleCertVerifier.new ⟨[1, 2, 3]⟩).verify_client_cert ⟨[1, 2, 4]⟩ [] 0
      = .error (.InvalidCertificate .ApplicationVerificationFailure) :=
  (pin_verifier_accept_iff_byte_equal (SingleCertVerifier.new ⟨[1, 2, 3]⟩)
      ⟨[1, 2, 4]⟩ [] [⟨[9]⟩] 0 1 [] [2] [] [[3]] [] [4]).2.1.mpr (by decide)

/-- Helper: the modelled server-side handshake succeeds exactly when its
transport part succeeds and the client's presented certificate is the pinned
one. -/
theorem tlsAccept_ok_iff (v : SingleCertVerifier) (h : HandshakeAttempt) :
    tlsAccept v h = .ok () ↔
      h.transportOk = true ∧ h.presented = v.certificate := by
  unfold tlsAccept SingleCertVerifier.verify_client_cert
  cases ht : h.transportOk <;>
    by_cases hp : h.presented = v.certificate <;> simp [ht, hp]

/-- Helper: the modelled client-side handshake succeeds exactly when its
transport part succeeds and the relay's presented certificate is the pinned
one. -/
theorem tlsConnect_ok_iff (v : SingleCertVerifier) (domain : ServerName)
    (h : HandshakeAttempt) :
    tlsConnect v domain h = .ok () ↔
      h.transportOk = true ∧ h.presented = v.certificate := by
  unfold tlsConnect SingleCertVerifier.verify_server_cert
  cases ht : h.transportOk <;>
    by_cases hp : h.presented = v.certificate <;> simp [ht, hp]

/-- Helper: every session spawned by the client redial loop passed its TLS
handshake with the relay. -/
theorem clientLoop_spawned_handshake_ok (v : SingleCertVerifier)
    (domain : ServerName) (inputs : List ClientIterInput)
    (inp : ClientIterInput)
    (hmem : inp ∈ (clientLoop v domain inputs).spawned) :
    tlsConnect v domain inp.handshake = .ok () := by
  induction inputs with
  | nil => simp [clientLoop, LoopOutcome.spawned] at hmem
  | cons j rest ih =>
    unfold clientLoop at hmem
    cases hc : j.proxyConnect with
    | error e => simp [hc, LoopOutcome.spawned] at hmem
    | ok c =>
      cases hh : tlsConnect v domain j.handshake with
      | error e => simp [hc, hh, LoopOutcome.spawned] at hmem
      | ok u =>
        cases u
        cases hrec : clientLoop v domain rest with
        | running s =>
          simp only [hc, hh, hrec, LoopOutcome.spawned, List.mem_cons] at hmem
          rcases hmem with hmem | hmem
          · exact hmem ▸ hh
          · exact ih (by simp [hrec, LoopOutcome.spawned, hmem])
        | fatal s e =>
          simp only [hc, hh, hrec, LoopOutcome.spawned, List.mem_cons] at hmem
          rcases hmem with hmem | hmem
          · exact hmem ▸ hh
          · exact ih (by simp [hrec, LoopOutcome.spawned, hmem])

/-- C2: on both sides, the relay phase starts only after that session's TLS
handshake succeeded (which requires the presented certificate to equal the
pinned one); on handshake failure the session's trace holds only the failure
event, so no relay traffic is exchanged. -/
theorem relay_only_after_handshake
    (v : SingleCertVerifier) (env : ServerSessionEnv) (e : RustlsError)
    (domain : ServerName) (inputs : List ClientIterInput)
    (inp : ClientIterInput) :
    (.relayStart ∈ (serverSessionTask v env).1 →
        tlsAccept v env.handshake = .ok ()
        ∧ env.handshake.presented = v.certificate
        ∧ (serverSessionTask v env).1
            = [.handshakeOk, .relayStart, .relayDone env.relay])
    ∧ (tlsAccept v env.handshake = .error e →
        (serverSessionTask v env).1 = [.handshakeFailed e])
    ∧ (inp ∈ (clientLoop v domain inputs).spawned →
        tlsConnect v domain inp.handshake = .ok ()
        ∧ inp.handshake.presented = v.certificate) := by
  refine ⟨?_, ?_, ?_⟩
  · intro hmem
    cases ha : tlsAccept v env.handshake with
    | error e' =>
      unfold serverSessionTask at hmem
      simp [ha] at hmem
    | ok u =>
      cases u
      refine ⟨rfl, ((tlsAccept_ok_iff v env.handshake).mp ha).2, ?_⟩
      unfold serverSessionTask
      simp [ha]
  · intro ha
    unfold serverSessionTask
    simp [ha]
  · intro hmem
    have h := clientLoop_spawned_handshake_ok v domain inputs inp hmem
    exact ⟨h, ((tlsConnect_ok_iff v domain inp.handshake).mp h).2⟩

/-- Witness for C2: with pinned client certificate `[1]`, a server-side
session whose peer presents `[2]` fails its handshake and its whole trace is
the single failure event - no relay events. -/
theorem relay_only_after_handshake_witness :
    (serverSessionTask (SingleCertVerifier.new ⟨[1]⟩)
        ⟨⟨⟨[2]⟩, [], [], [], 0, true⟩, .ok ()⟩).1
      = [.handshakeFailed (.InvalidCertificate .ApplicationVerificationFailure)] :=
  (relay_only_after_handshake (SingleCertVerifier.new ⟨[1]⟩)
      ⟨⟨⟨[2]⟩, [], [], [], 0, true⟩, .ok ()⟩
      (.InvalidCertificate .ApplicationVerificationFailure)
      [] [] ⟨.ok 0, ⟨⟨[1]⟩, [], [], [], 0, true⟩, .ok 0, .ok ()⟩).2.1 (by decide)

/-- Helper: the per-direction copy loop delivers exactly the concatenation of
the chunks read, in order. -/
theorem copyChunks_eq_flatten (l : List (List Nat)) :
    copyChunks l = l.flatten := by
  induction l with
  | nil => rfl
  | cons c rest ih => simp [copyChunks, ih]

/-- C7: the relay engine delivers, for each direction independently, exactly
the bytes written into that direction's source, in order; each direction's
result depends only on its own source stream, so no cross-direction ordering
is imposed. -/
theorem relay_fidelity (ab ba ab' ba' : DirectionSource) :
    ((copy_bidirectional ab ba).1.delivered = ab.chunks.flatten)
    ∧ ((copy_bidirectional ab ba).2.delivered = ba.chunks.flatten)
    ∧ (copy_bidirectional ab ba).1 = (copy_bidirectional ab ba').1
    ∧ (copy_bidirectional ab ba).2 = (copy_bidirectional ab' ba).2 := by
  refine ⟨?_, ?_, rfl, rfl⟩ <;>
    simp [copy_bidirectional, runDirection, copyChunks_eq_flatten]

/-- C8: end-of-stream on one direction's source triggers the shutdown of the
opposite stream's write half, symmetrically; each direction ends in a
terminal state (clean close on EOF, or its read error surfaces), and the
engine returns a final result exactly when both directions are terminal, with
success iff both closed cleanly. -/
theorem relay_half_close_and_completion (ab ba : DirectionSource)
    (e : IoError) :
    ((copy_bidirectional ab ba).1.shutdownSent = true ↔ ab.terminal = .eof)
    ∧ ((copy_bidirectional ab ba).2.shutdownSent = true ↔ ba.terminal = .eof)
    ∧ ((copy_bidirectional ab ba).1.outcome = .error e ↔
        ab.terminal = .readError e)
    ∧ ((copy_bidirectional ab ba).2.outcome = .error e ↔
        ba.terminal = .readError e)
    ∧ ((copy_bidirectional_result ab ba).isOk = true ↔
        ab.terminal = .eof ∧ ba.terminal = .eof) := by
  cases hab : ab.terminal <;> cases hba : ba.terminal <;>
    simp [copy_bidirectional, copy_bidirectional_result, runDirection,
      hab, hba, Except.isOk, Except.toBool]

/-- C9: the server-role check (`verify_client_cert`) and the client-role check
(`verify_server_cert`) compute the same accept/reject decision, namely the
spec's single byte-equality algorithm `spec_verify`, for every pinned
reference and every presented certificate. -/
theorem dual_role_single_algorithm (pinned e : Certificate)
    (ints : List Certificate) (now : SystemTime) (sn : ServerName)
    (scts : List Sct) (ocsp : OcspResponse) :
    ((SingleCertVerifier.new pinned).verify_client_cert e ints now
        = .ok .assertion ↔ spec_verify pinned e = true)
    ∧ ((SingleCertVerifier.new pinned).verify_server_cert e ints sn scts ocsp now
        = .ok .assertion ↔ spec_verify pinned e = true)
    ∧ (spec_verify pinned e = true ↔ e = pinned) := by
  unfold SingleCertVerifier.verify_client_cert SingleCertVerifier.verify_server_cert
    spec_verify SingleCertVerifier.new
  by_cases h : e = pinned <;> simp [h]

/-- Witness for C9: with pinned certificate `[7]`, both roles accept the
presented certificate `[7]`. -/
theorem dual_role_single_algorithm_witness :
    (SingleCertVerifier.new ⟨[7]⟩).verify_server_cert ⟨[7]⟩ [] [] [] [] 5
      = .ok .assertion :=
  (dual_role_single_algorithm ⟨[7]⟩ ⟨[7]⟩ [] 5 [] [] []).2.1.mpr (by decide)

/-- Helper: an `Except` with `isOk` set is an `ok`. -/
theorem exceptIsOk_exists {ε α : Type} (x : Except ε α) (h : x.isOk = true) :
    ∃ a, x = .ok a := by
  cases x with
  | error e => simp [Except.isOk, Except.toBool] at h
  | ok a => exact ⟨a, rfl⟩

/-- Helper: when every accept succeeds, the server loop spawns every pairing
and keeps running, whatever the spawned sessions' environments hold. -/
theorem serverLoop_all_ok (v : SingleCertVerifier)
    (inputs : List ServerIterInput)
    (hok : ∀ j ∈ inputs, j.proxyAccept.isOk = true
        ∧ j.incomingAccept.isOk = true) :
    serverLoop v inputs = .running inputs := by
  induction inputs with
  | nil => rfl
  | cons j rest ih =>
    obtain ⟨h1, h2⟩ := hok j (by simp)
    obtain ⟨pc, hpc⟩ := exceptIsOk_exists _ h1
    obtain ⟨ic, hic⟩ := exceptIsOk_exists _ h2
    have hrest := ih (fun k hk => hok k (by simp [hk]))
    simp [serverLoop, hpc, hic, try_join, hrest]

/-- Helper: when every relay connect and relay handshake succeeds, the client
loop spawns every session and keeps running, whatever the spawned tasks'
environments hold. -/
theorem clientLoop_all_ok (v : SingleCertVerifier) (domain : ServerName)
    (inputs : List ClientIterInput)
    (hok : ∀ j ∈ inputs, j.proxyConnect.isOk = true
        ∧ tlsConnect v domain j.handshake = .ok ()) :
    clientLoop v domain inputs = .running inputs := by
  induction inputs with
  | nil => rfl
  | cons j rest ih =>
    obtain ⟨h1, h2⟩ := hok j (by simp)
    obtain ⟨pc, hpc⟩ := exceptIsOk_exists _ h1
    have hrest := ih (fun k hk => hok k (by simp [hk]))
    simp [clientLoop, hpc, h2, hrest]

/-- Helper: the server loop passes over a prefix of successful accepts and
then behaves on the remainder, with the prefix's sessions all spawned. -/
theorem serverLoop_prefix (v : SingleCertVerifier)
    (pre rest : List ServerIterInput)
    (hok : ∀ j ∈ pre, j.proxyAccept.isOk = true
        ∧ j.incomingAccept.isOk = true) :
    serverLoop v (pre ++ rest) =
      match serverLoop v rest with
      | .running s => .running (pre ++ s)
      | .fatal s e => .fatal (pre ++ s) e := by
  induction pre with
  | nil =>
    simp only [List.nil_append]
    cases serverLoop v rest <;> rfl
  | cons j tl ih =>
    obtain ⟨h1, h2⟩ := hok j (by simp)
    obtain ⟨pc, hpc⟩ := exceptIsOk_exists _ h1
    obtain ⟨ic, hic⟩ := exceptIsOk_exists _ h2
    have htl := ih (fun k hk => hok k (by simp [hk]))
    have hstep : serverLoop v ((j :: tl) ++ rest) =
        match serverLoop v (tl ++ rest) with
        | .running s => .running (j :: s)
        | .fatal s e => .fatal (j :: s) e := by
      simp [serverLoop, hpc, hic, try_join]
    rw [hstep, htl]
    cases serverLoop v rest <;> simp

/-- Helper: the client loop passes over a prefix of successful
connect-and-handshake iterations and then behaves on the remainder, with the
prefix's sessions all spawned. -/
theorem clientLoop_prefix (v : SingleCertVerifier) (domain : ServerName)
    (pre rest : List ClientIterInput)
    (hok : ∀ j ∈ pre, j.proxyConnect.isOk = true
        ∧ tlsConnect v domain j.handshake = .ok ()) :
    clientLoop v domain (pre ++ rest) =
      match clientLoop v domain rest with
      | .running s => .running (pre ++ s)
      | .fatal s e => .fatal (pre ++ s) e := by
  induction pre with
  | nil =>
    simp only [List.nil_append]
    cases clientLoop v domain rest <;> rfl
  | cons j tl ih =>
    obtain ⟨h1, h2⟩ := hok j (by simp)
    obtain ⟨pc, hpc⟩ := exceptIsOk_exists _ h1
    have htl := ih (fun k hk => hok k (by simp [hk]))
    have hstep : clientLoop v domain ((j :: tl) ++ rest) =
        match clientLoop v domain (tl ++ rest) with
        | .running s => .running (j :: s)
        | .fatal s e => .fatal (j :: s) e := by
      simp [clientLoop, hpc, h2]
    rw [hstep, htl]
    cases clientLoop v domain rest <;> simp

/-- C4: with the loop-level operations succeeding, an error or pin rejection
inside any session never aborts the relay-side accept loop or the dial-side
redial loop - every pairing is spawned and both loops keep running, whatever
the sessions' handshake and relay outcomes are - and each spawned session's
task outcome is a function of that session's own environment alone. -/
theorem session_error_isolation
    (v : SingleCertVerifier) (domain : ServerName)
    (sinputs : List ServerIterInput) (cinputs : List ClientIterInput)
    (hsa : ∀ j ∈ sinputs, j.proxyAccept.isOk = true
        ∧ j.incomingAccept.isOk = true)
    (hca : ∀ j ∈ cinputs, j.proxyConnect.isOk = true
        ∧ tlsConnect v domain j.handshake = .ok ()) :
    serverLoop v sinputs = .running sinputs
    ∧ clientLoop v domain cinputs = .running cinputs
    ∧ (serverLoop v sinputs).spawned.map (fun j => serverSessionTask v j.session)
        = sinputs.map (fun j => serverSessionTask v j.session)
    ∧ (clientLoop v domain cinputs).spawned.map (fun j => clientSessionTask j.task)
        = cinputs.map (fun j => clientSessionTask j.task) := by
  have hs := serverLoop_all_ok v sinputs hsa
  have hc := clientLoop_all_ok v domain cinputs hca
  exact ⟨hs, hc, by rw [hs]; rfl, by rw [hc]; rfl⟩

/-- Witness for C4: one server pairing whose session's handshake will be
rejected (peer presents `[9]` against pin `[1]`) and whose relay would error;
the accept loop still spawns it and keeps running. -/
theorem session_error_isolation_witness :
    serverLoop (SingleCertVerifier.new ⟨[1]⟩)
        [⟨.ok 10, .ok 20, ⟨⟨⟨[9]⟩, [], [], [], 0, true⟩, .error ⟨5⟩⟩⟩]
      = .running [⟨.ok 10, .ok 20, ⟨⟨⟨[9]⟩, [], [], [], 0, true⟩, .error ⟨5⟩⟩⟩] :=
  (session_error_isolation (SingleCertVerifier.new ⟨[1]⟩) []
      [⟨.ok 10, .ok 20, ⟨⟨⟨[9]⟩, [], [], [], 0, true⟩, .error ⟨5⟩⟩⟩] []
      (by decide) (by simp)).1

/-- C5: on the dial side, a failure of the outbound connect to the relay, or
of the TLS handshake with the relay, falls out of the redial loop through `?`
as a process-fatal error: the loop ends at that iteration with no further
dialing (the result does not depend on the supplied remainder `rest`), and
the process exits with a nonzero status. -/
theorem dial_failure_is_process_fatal
    (v : SingleCertVerifier) (domain : ServerName)
    (pre rest : List ClientIterInput) (bad : ClientIterInput)
    (e : IoError) (e' : RustlsError)
    (hok : ∀ j ∈ pre, j.proxyConnect.isOk = true
        ∧ tlsConnect v domain j.handshake = .ok ()) :
    (bad.proxyConnect = .error e →
        clientLoop v domain (pre ++ bad :: rest) = .fatal pre (.Io e)
        ∧ exitStatus (clientLoop v domain (pre ++ bad :: rest)) = some 1)
    ∧ (bad.proxyConnect.isOk = true →
        tlsConnect v domain bad.handshake = .error e' →
        clientLoop v domain (pre ++ bad :: rest) = .fatal pre (.Tls e')
        ∧ exitStatus (clientLoop v domain (pre ++ bad :: rest)) = some 1) := by
  have hpre := clientLoop_prefix v domain pre (bad :: rest) hok
  constructor
  · intro hbad
    have hhd : clientLoop v domain (bad :: rest) = .fatal [] (.Io e) := by
      simp [clientLoop, hbad]
    rw [hpre, hhd]
    simp [exitStatus]
  · intro hco hhs
    obtain ⟨pc, hpc⟩ := exceptIsOk_exists _ hco
    have hhd : clientLoop v domain (bad :: rest) = .fatal [] (.Tls e') := by
      simp [clientLoop, hpc, hhs]
    rw [hpre, hhd]
    simp [exitStatus]

/-- Witness for C5: first dial refused (no successful prior iterations): the
loop dies immediately with the I/O error and a nonzero exit status. -/
theorem dial_failure_is_process_fatal_witness :
    clientLoop (SingleCertVerifier.new ⟨[1]⟩) []
        [⟨.error ⟨111⟩, ⟨⟨[1]⟩, [], [], [], 0, true⟩, ⟨.ok 3, .ok ()⟩⟩]
      = .fatal [] (.Io ⟨111⟩) :=
  ((dial_failure_is_process_fatal (SingleCertVerifier.new ⟨[1]⟩) [] [] []
      ⟨.error ⟨111⟩, ⟨⟨[1]⟩, [], [], [], 0, true⟩, ⟨.ok 3, .ok ()⟩⟩
      ⟨111⟩ .General (by simp)).1 (by decide)).1

/-- C6: a failure of the dial side's second-hop connect to the true
destination is contained in that session's spawned task: the task's whole
trace is the connect-failure event and its error return, while the redial
loop spawns every session, keeps running, and the process does not exit. -/
theorem second_hop_failure_session_local
    (v : SingleCertVerifier) (domain : ServerName)
    (inputs : List ClientIterInput) (inp : ClientIterInput) (e : IoError)
    (hok : ∀ j ∈ inputs, j.proxyConnect.isOk = true
        ∧ tlsConnect v domain j.handshake = .ok ()) :
    clientLoop v domain inputs = .running inputs
    ∧ (inp.task.outgoingConnect = .error e →
        clientSessionTask inp.task
          = ([.outgoingConnectFailed e], .error (.Io e)))
    ∧ exitStatus (clientLoop v domain inputs) = none := by
  have hc := clientLoop_all_ok v domain inputs hok
  refine ⟨hc, ?_, by rw [hc]; rfl⟩
  intro hbad
  unfold clientSessionTask
  simp [hbad]

/-- Witness for C6: one redial iteration succeeds at the relay; its task's
destination connect fails with error 61; the loop still spawns it and keeps
running. -/
theorem second_hop_failure_session_local_witness :
    clientLoop (SingleCertVerifier.new ⟨[4]⟩) []
        [⟨.ok 7, ⟨⟨[4]⟩, [], [], [], 0, true⟩, ⟨.error ⟨61⟩, .ok ()⟩⟩]
      = .running [⟨.ok 7, ⟨⟨[4]⟩, [], [], [], 0, true⟩, ⟨.error ⟨61⟩, .ok ()⟩⟩] :=
  (second_hop_failure_session_local (SingleCertVerifier.new ⟨[4]⟩) []
      [⟨.ok 7, ⟨⟨[4]⟩, [], [], [], 0, true⟩, ⟨.error ⟨61⟩, .ok ()⟩⟩]
      ⟨.ok 7, ⟨⟨[4]⟩, [], [], [], 0, true⟩, ⟨.error ⟨61⟩, .ok ()⟩⟩
      ⟨61⟩ (by decide)).1

/-- Helper: from any broker state in which at most one accept queue holds
waiting connections, running the broker over a schedule extends the pairings
by the zip, in order, of each endpoint's waiting connections followed by its
future arrivals. -/
theorem brokerStep_foldl_paired (sched : List Arrival) :
    ∀ (s : BrokerState), s.pendingProxy = [] ∨ s.pendingIncoming = [] →
    (sched.foldl brokerStep s).paired
      = s.paired ++ (s.pendingProxy ++ proxyArrivals sched).zip
          (s.pendingIncoming ++ incomingArrivals sched) := by
  induction sched with
  | nil =>
    intro s hinv
    rcases hinv with h | h <;> simp [proxyArrivals, incomingArrivals, h]
  | cons a rest ih =>
    rintro ⟨pp, pi, pr⟩ hinv
    simp only at hinv
    cases a with
    | proxy c =>
      rcases hinv with h | h
      · subst h
        cases pi with
        | nil =>
          rw [List.foldl_cons]
          have hstep : brokerStep ⟨[], [], pr⟩ (Arrival.proxy c)
              = ⟨[c], [], pr⟩ := rfl
          rw [hstep, ih ⟨[c], [], pr⟩ (Or.inr rfl)]
          simp [proxyArrivals, incomingArrivals]
        | cons i is =>
          rw [List.foldl_cons]
          have hstep : brokerStep ⟨[], i :: is, pr⟩ (Arrival.proxy c)
              = ⟨[], is, pr ++ [(c, i)]⟩ := rfl
          rw [hstep, ih ⟨[], is, pr ++ [(c, i)]⟩ (Or.inl rfl)]
          simp [proxyArrivals, incomingArrivals]
      · subst h
        cases pp with
        | nil =>
          rw [List.foldl_cons]
          have hstep : brokerStep ⟨[], [], pr⟩ (Arrival.proxy c)
              = ⟨[c], [], pr⟩ := rfl
          rw [hstep, ih ⟨[c], [], pr⟩ (Or.inr rfl)]
          simp [proxyArrivals, incomingArrivals]
        | cons p ps =>
          rw [List.foldl_cons]
          have hstep : brokerStep ⟨p :: ps, [], pr⟩ (Arrival.proxy c)
              = ⟨p :: (ps ++ [c]), [], pr⟩ := rfl
          rw [hstep, ih ⟨p :: (ps ++ [c]), [], pr⟩ (Or.inr rfl)]
          simp [proxyArrivals, incomingArrivals]
    | incoming c =>
      rcases hinv with h | h
      · subst h
        cases pi with
        | nil =>
          rw [List.foldl_cons]
          have hstep : brokerStep ⟨[], [], pr⟩ (Arrival.incoming c)
              = ⟨[], [c], pr⟩ := rfl
          rw [hstep, ih ⟨[], [c], pr⟩ (Or.inl rfl)]
          simp [proxyArrivals, incomingArrivals]
        | cons i is =>
          rw [List.foldl_cons]
          have hstep : brokerStep ⟨[], i :: is, pr⟩ (Arrival.incoming c)
              = ⟨[], i :: (is ++ [c]), pr⟩ := rfl
          rw [hstep, ih ⟨[], i :: (is ++ [c]), pr⟩ (Or.inl rfl)]
          simp [proxyArrivals, incomingArrivals]
      · subst h
        cases pp with
        | nil =>
          rw [List.foldl_cons]
          have hstep : brokerStep ⟨[], [], pr⟩ (Arrival.incoming c)
              = ⟨[], [c], pr⟩ := rfl
          rw [hstep, ih ⟨[], [c], pr⟩ (Or.inl rfl)]
          simp [proxyArrivals, incomingArrivals]
        | cons p ps =>
          rw [List.foldl_cons]
          have hstep : brokerStep ⟨p :: ps, [], pr⟩ (Arrival.incoming c)
              = ⟨ps, [], pr ++ [(p, c)]⟩ := rfl
          rw [hstep, ih ⟨ps, [], pr ++ [(p, c)]⟩ (Or.inr rfl)]
          simp [proxyArrivals, incomingArrivals]

/-- C3: for every arrival schedule on the two relay-side endpoints, whatever
the interleaving, the broker pairs the Nth connection arriving on the public
endpoint with the Nth connection arriving on the private endpoint, one-to-one
in arrival order, and the number of pairings made is exactly the number of
completed Nth-arrival couples (the loop waits until both Nth arrivals
exist). -/
theorem fifo_lockstep_pairing (sched : List Arrival) (n : Nat)
    (pc ic : Conn) :
    ((brokerRun sched).paired
        = (proxyArrivals sched).zip (incomingArrivals sched))
    ∧ ((proxyArrivals sched)[n]? = some pc →
        (incomingArrivals sched)[n]? = some ic →
        (brokerRun sched).paired[n]? = some (pc, ic))
    ∧ ((brokerRun sched).paired.length
        = min (proxyArrivals sched).length (incomingArrivals sched).length) := by
  have h := brokerStep_foldl_paired sched ⟨[], [], []⟩ (Or.inl rfl)
  simp only [List.nil_append] at h
  have hb : (brokerRun sched).paired
      = (proxyArrivals sched).zip (incomingArrivals sched) := by
    simpa [brokerRun] using h
  refine ⟨hb, ?_, ?_⟩
  · intro h1 h2
    rw [hb]
    exact List.getElem?_zip_eq_some.mpr ⟨h1, h2⟩
  · rw [hb]
    exact List.length_zip ..

/-- Witness for C3: two private-endpoint connections (100, 200) arrive before
any public-endpoint connection; once public connections 1 and 2 arrive, the
second pairing is (2, 200) - arrival order, not last-in-first-out. -/
theorem fifo_lockstep_pairing_witness :
    (brokerRun [.incoming 100, .incoming 200, .proxy 1, .proxy 2]).paired[1]?
      = some (2, 200) :=
  (fifo_lockstep_pairing [.incoming 100, .incoming 200, .proxy 1, .proxy 2]
      1 2 200).2.1 (by decide) (by decide)

/-- C10: an I/O error from the accept call on either listening endpoint
escapes the server accept loop through the `?` on `try_join!` and terminates
the whole server process with a nonzero status; it is not contained to a
session, and no later pairing happens (the result does not depend on the
supplied remainder `rest`). -/
theorem accept_error_terminates_process
    (v : SingleCertVerifier) (pre rest : List ServerIterInput)
    (bad : ServerIterInput) (e : IoError)
    (hok : ∀ j ∈ pre, j.proxyAccept.isOk = true
        ∧ j.incomingAccept.isOk = true) :
    (bad.proxyAccept = .error e →
        serverLoop v (pre ++ bad :: rest) = .fatal pre (.Io e)
        ∧ exitStatus (serverLoop v (pre ++ bad :: rest)) = some 1)
    ∧ (bad.proxyAccept.isOk = true → bad.incomingAccept = .error e →
        serverLoop v (pre ++ bad :: rest) = .fatal pre (.Io e)
        ∧ exitStatus (serverLoop v (pre ++ bad :: rest)) = some 1) := by
  have hpre := serverLoop_prefix v pre (bad :: rest) hok
  constructor
  · intro hbad
    have hhd : serverLoop v (bad :: rest) = .fatal [] (.Io e) := by
      simp [serverLoop, try_join, hbad]
    rw [hpre, hhd]
    simp [exitStatus]
  · intro hpa hbad
    obtain ⟨pc, hpc⟩ := exceptIsOk_exists _ hpa
    have hhd : serverLoop v (bad :: rest) = .fatal [] (.Io e) := by
      simp [serverLoop, try_join, hpc, hbad]
    rw [hpre, hhd]
    simp [exitStatus]

/-- Witness for C10: after one successful pairing, the private listener's
accept fails with error 24; the loop dies with that error, having spawned
only the first session. -/
theorem accept_error_terminates_process_witness :
    serverLoop (SingleCertVerifier.new ⟨[1]⟩)
        [⟨.ok 1, .ok 2, ⟨⟨⟨[1]⟩, [], [], [], 0, true⟩, .ok ()⟩⟩,
         ⟨.ok 3, .error ⟨24⟩, ⟨⟨⟨[1]⟩, [], [], [], 0, true⟩, .ok ()⟩⟩]
      = .fatal [⟨.ok 1, .ok 2, ⟨⟨⟨[1]⟩, [], [], [], 0, true⟩, .ok ()⟩⟩]
          (.Io ⟨24⟩) :=
  ((accept_error_terminates_process (SingleCertVerifier.new ⟨[1]⟩)
      [⟨.ok 1, .ok 2, ⟨⟨⟨[1]⟩, [], [], [], 0, true⟩, .ok ()⟩⟩] []
      ⟨.ok 3, .error ⟨24⟩, ⟨⟨⟨[1]⟩, [], [], [], 0, true⟩, .ok ()⟩⟩
      ⟨24⟩ (by decide)).2 (by decide) (by decide)).1

end STGC
